import Mathlib

/-!
Shallow embedding of `kartograf/bogon.py` (bogon classification of IP
prefixes and ASNs) and proofs of the specification claims about it.

The Python module uses
  * fragments of the standard `ipaddress` library:
    `ipaddress.ip_network` (strict parsing, trying IPv4 then IPv6) and
    `IPv4Network/IPv6Network.subnet_of`;
  * `str.lower`, `str.replace`, `str.strip` and `int(...)` for ASN literal
    normalisation.
These library behaviours are embedded below, restricted to ASCII input
(the registry literals and all classification queries are ASCII) and to
prefix-length (`a.b.c.d/n`) netmask notation; the dotted-quad netmask and
host-mask notations of `ipaddress` are not modelled, and neither are
non-ASCII digits accepted by Python's `int`.  A Python exception
(`ValueError`, which the specification calls `InvalidInputError`) is
modelled as `Except.error PyErr.valueError`.
-/

/-- The one error kind this module can raise: Python's `ValueError`
(raised by `ipaddress.ip_network` on malformed/strict-violating literals
and by `int(...)` on non-numeric strings).  The spec names it
`InvalidInputError`. -/
inductive PyErr where
  | valueError : PyErr
deriving DecidableEq

/-! ## Python string primitives (ASCII fragment) -/

/-- Python `str.lower`, for ASCII characters (identity on everything else
in the ASCII range; the inputs of this module are ASCII). -/
def pyLowerChar (c : Char) : Char :=
  if 'A' ≤ c ∧ c ≤ 'Z' then Char.ofNat (c.toNat + 32) else c

/-- Python `str.lower` on a character list. -/
def pyLower (l : List Char) : List Char := l.map pyLowerChar

/-- Python `s.replace("as", "")`: remove every non-overlapping occurrence
of the two-character pattern `as`, scanning left to right. -/
def removeAS : List Char → List Char
  | 'a' :: 's' :: rest => removeAS rest
  | c :: rest => c :: removeAS rest
  | [] => []

/-- Characters stripped by Python `str.strip()` (ASCII whitespace). -/
def pyIsSpace (c : Char) : Bool :=
  c = ' ' ∨ c = '\t' ∨ c = '\n' ∨ c = '\r' ∨ c.toNat = 11 ∨ c.toNat = 12

/-- Python `str.strip()`: drop whitespace from both ends. -/
def pyStrip (l : List Char) : List Char :=
  ((l.dropWhile pyIsSpace).reverse.dropWhile pyIsSpace).reverse

/-- Decimal digit run as accepted by Python `int`: digits with single
underscores permitted between digits (`int("6_5000")` is 65000), no
leading/trailing/doubled underscore.  Accumulates the value. -/
def pyDigitsAux : Nat → List Char → Option Nat
  | acc, [] => some acc
  | acc, '_' :: c :: rest =>
      if c.isDigit then pyDigitsAux (acc * 10 + (c.toNat - 48)) rest else none
  | _, ['_'] => none
  | acc, c :: rest =>
      if c.isDigit then pyDigitsAux (acc * 10 + (c.toNat - 48)) rest else none

/-- Nonempty decimal digit run (Python `int` body after the sign). -/
def pyDigits : List Char → Option Nat
  | [] => none
  | c :: rest => if c.isDigit then pyDigitsAux (c.toNat - 48) rest else none

/-- Python `int(s)` for base 10 on ASCII strings: strip whitespace, then an
optional sign followed by digits (underscore separators allowed between
digits).  `none` models the `ValueError` raised on anything else. -/
def pyInt (l : List Char) : Option Int :=
  match pyStrip l with
  | '+' :: rest => (pyDigits rest).map Int.ofNat
  | '-' :: rest => (pyDigits rest).map (fun n => -(n : Int))
  | l' => (pyDigits l').map Int.ofNat

/-! ## `ipaddress` fragment: address and network parsing -/

/-- Split a character list at every occurrence of `sep` (Python
`str.split(sep)`; yields `[[]]` on the empty string). -/
def splitOn (sep : Char) : List Char → List (List Char)
  | [] => [[]]
  | c :: rest =>
      let r := splitOn sep rest
      if c = sep then [] :: r
      else
        match r with
        | [] => [[c]]
        | h :: t => (c :: h) :: t

/-- Parse every element of a list, failing when any element fails (the
`ipaddress` loops parse octets and hextets one by one and propagate the
first failure). -/
def optMapM (f : List Char → Option Nat) : List (List Char) → Option (List Nat)
  | [] => some []
  | x :: xs =>
      match f x, optMapM f xs with
      | some y, some ys => some (y :: ys)
      | _, _ => none

/-- `ipaddress._parse_octet`: 1–3 ASCII digits, no leading zero, value at
most 255. -/
def parse_octet (l : List Char) : Option Nat :=
  if l = [] then none
  else if ¬ l.all Char.isDigit then none
  else if l.length > 3 then none
  else if l.length > 1 ∧ l.head? = some '0' then none
  else
    let v := l.foldl (fun a c => a * 10 + (c.toNat - 48)) 0
    if v > 255 then none else some v

/-- `IPv4Address` parsing: exactly four octets joined by dots; value as a
32-bit unsigned integer. -/
def parseIPv4Address (l : List Char) : Option Nat :=
  match optMapM parse_octet (splitOn '.' l) with
  | some [a, b, c, d] => some (((a * 256 + b) * 256 + c) * 256 + d)
  | _ => none

/-- Hex digit test used by `ipaddress._parse_hextet` (`_HEX_DIGITS`). -/
def isHexDigitChar (c : Char) : Bool :=
  ('0' ≤ c ∧ c ≤ '9') ∨ ('a' ≤ c ∧ c ≤ 'f') ∨ ('A' ≤ c ∧ c ≤ 'F')

/-- Value of a hex digit. -/
def hexVal (c : Char) : Nat :=
  if '0' ≤ c ∧ c ≤ '9' then c.toNat - 48
  else if 'a' ≤ c ∧ c ≤ 'f' then c.toNat - 87
  else c.toNat - 55

/-- `ipaddress._parse_hextet`: 1–4 hex digits. -/
def parse_hextet (l : List Char) : Option Nat :=
  if ¬ l.all isHexDigitChar then none
  else if l.length > 4 then none
  else if l = [] then none
  else some (l.foldl (fun a c => a * 16 + hexVal c) 0)

/-- A hex digit character, lower case (Python `'%x'` formatting). -/
def hexDigitChar (n : Nat) : Char :=
  if n < 10 then Char.ofNat (48 + n) else Char.ofNat (87 + n)

/-- Python `'%x' % n` for `n < 65536` (used when an IPv6 literal embeds a
trailing IPv4 address, which `ipaddress` re-renders as two hextets). -/
def hexRepr (n : Nat) : List Char :=
  if n < 16 then [hexDigitChar n]
  else if n < 256 then [hexDigitChar (n / 16), hexDigitChar (n % 16)]
  else if n < 4096 then
    [hexDigitChar (n / 256), hexDigitChar (n / 16 % 16), hexDigitChar (n % 16)]
  else
    [hexDigitChar (n / 4096), hexDigitChar (n / 256 % 16),
     hexDigitChar (n / 16 % 16), hexDigitChar (n % 16)]

/-- The interior parts of a split IPv6 literal (everything except the first
and last part); an empty interior part marks the position of `::`. -/
def interiorParts (parts : List (List Char)) : List (List Char) :=
  (parts.drop 1).dropLast

/-- `IPv6Address._ip_int_from_string`: split on `:`, handle one `::` run,
optionally a trailing embedded IPv4 address, at most 8 hextets; value as a
128-bit unsigned integer. -/
def parseIPv6Address (l : List Char) : Option Nat :=
  let parts0 := splitOn ':' l
  if parts0.length < 3 then none
  else
    let withV4 : Option (List (List Char)) :=
      match parts0.getLast? with
      | some last =>
          if last.contains '.' then
            match parseIPv4Address last with
            | some v4 =>
                some (parts0.dropLast ++ [hexRepr (v4 / 65536), hexRepr (v4 % 65536)])
            | none => none
          else some parts0
      | none => some parts0
    match withV4 with
    | none => none
    | some parts =>
      if parts.length > 9 then none
      else
        match (interiorParts parts).findIdx? (· = []) with
        | some i =>
            -- a `::` is present at part index `i + 1`
            if ((interiorParts parts).filter (· = [])).length ≥ 2 then none
            else
              let skip := i + 1
              let hi0 := skip
              let lo0 := parts.length - skip - 1
              let hi? : Option Nat :=
                if parts.head? = some [] then
                  if hi0 = 1 then some 0 else none
                else some hi0
              let lo? : Option Nat :=
                if parts.getLast? = some [] then
                  if lo0 = 1 then some 0 else none
                else some lo0
              match hi?, lo? with
              | some hi, some lo =>
                  let skipped := 8 - (hi + lo)
                  if 8 ≤ hi + lo then none
                  else
                    match optMapM parse_hextet (parts.take hi),
                          optMapM parse_hextet (parts.drop (parts.length - lo)) with
                    | some his, some los =>
                        let a1 := his.foldl (fun a h => a * 65536 + h) 0
                        some (los.foldl (fun a h => a * 65536 + h)
                               (a1 * 65536 ^ skipped))
                    | _, _ => none
              | _, _ => none
        | none =>
            if parts.length = 8 ∧ parts.head? ≠ some [] ∧ parts.getLast? ≠ some [] then
              match optMapM parse_hextet parts with
              | some hs => some (hs.foldl (fun a h => a * 65536 + h) 0)
              | none => none
            else none

/-- A parsed IP network: address family (4 or 6), network address as an
unsigned integer, and prefix length. -/
structure IPNetwork where
  version : Nat
  network_address : Nat
  prefixlen : Nat
deriving DecidableEq

/-- `ipaddress._prefix_from_prefix_string`: a nonempty ASCII digit string
(leading zeros allowed, no sign) whose value is at most `maxLen`. -/
def parsePrefixLen (maxLen : Nat) (l : List Char) : Option Nat :=
  if l ≠ [] ∧ l.all Char.isDigit then
    let v := l.foldl (fun a c => a * 10 + (c.toNat - 48)) 0
    if v ≤ maxLen then some v else none
  else none

/-- `IPv4Network` parsing without the strict host-bit check: the address
and prefix length of the literal (prefix length 32 when no `/` is
present). -/
def parseIPv4Interface (l : List Char) : Option (Nat × Nat) :=
  match splitOn '/' l with
  | [a] => (parseIPv4Address a).map (fun ip => (ip, 32))
  | [a, m] =>
      match parseIPv4Address a, parsePrefixLen 32 m with
      | some ip, some p => some (ip, p)
      | _, _ => none
  | _ => none

/-- `IPv4Network(s)` with the default `strict=True`: reject the literal
when host bits are set. -/
def parseIPv4Network (l : List Char) : Option IPNetwork :=
  match parseIPv4Interface l with
  | some (ip, p) => if ip % 2 ^ (32 - p) = 0 then some ⟨4, ip, p⟩ else none
  | none => none

/-- `IPv6Network` parsing without the strict host-bit check. -/
def parseIPv6Interface (l : List Char) : Option (Nat × Nat) :=
  match splitOn '/' l with
  | [a] => (parseIPv6Address a).map (fun ip => (ip, 128))
  | [a, m] =>
      match parseIPv6Address a, parsePrefixLen 128 m with
      | some ip, some p => some (ip, p)
      | _, _ => none
  | _ => none

/-- `IPv6Network(s)` with the default `strict=True`. -/
def parseIPv6Network (l : List Char) : Option IPNetwork :=
  match parseIPv6Interface l with
  | some (ip, p) => if ip % 2 ^ (128 - p) = 0 then some ⟨6, ip, p⟩ else none
  | none => none

/-- `ipaddress.ip_network(s)` (strict): try IPv4, then IPv6; `none` models
the `ValueError` raised when both fail. -/
def ip_network (s : String) : Option IPNetwork :=
  match parseIPv4Network s.data with
  | some n => some n
  | none => parseIPv6Network s.data

/-- Number of address bits of a family. -/
def familyBits (version : Nat) : Nat := if version = 4 then 32 else 128

/-- `broadcast_address` of a network, as an integer. -/
def broadcast_address (n : IPNetwork) : Nat :=
  n.network_address + (2 ^ (familyBits n.version - n.prefixlen) - 1)

/-- `a.subnet_of(b)`: same address family, and the address range of `a` is
contained in that of `b` (`b.network_address <= a.network_address` and
`a.broadcast_address <= b.broadcast_address`).  In `ipaddress` a family
mismatch raises `TypeError`; `is_bogon_pfx` only ever compares networks of
the same family, so modelling the mismatch as `false` does not change any
observable result of this module. -/
def subnet_of (a b : IPNetwork) : Bool :=
  a.version = b.version ∧
  b.network_address ≤ a.network_address ∧
  broadcast_address a ≤ broadcast_address b

/-! ## The registry (`SPECIAL_IPV4`, `SPECIAL_IPV6`) -/

/-- Special-purpose IPv4 ranges (`SPECIAL_IPV4` in `bogon.py`). -/
def SPECIAL_IPV4 : List String :=
  [ "0.0.0.0/8",
    "0.0.0.0/32",
    "10.0.0.0/8",
    "100.64.0.0/10",
    "127.0.0.0/8",
    "169.254.0.0/16",
    "172.16.0.0/12",
    "192.0.0.0/24",
    "192.0.0.0/29",
    "192.0.0.8/32",
    "192.0.0.9/32",
    "192.0.0.10/32",
    "192.0.0.170/32",
    "192.0.0.171/32",
    "192.0.2.0/24",
    "192.31.196.0/24",
    "192.52.193.0/24",
    "192.168.0.0/16",
    "192.175.48.0/24",
    "198.18.0.0/15",
    "198.51.100.0/24",
    "203.0.113.0/24",
    "224.0.0.0/4",
    "240.0.0.0/4",
    "255.255.255.255/32" ]

/-- Special-purpose IPv6 ranges (`SPECIAL_IPV6` in `bogon.py`). -/
def SPECIAL_IPV6 : List String :=
  [ "::/8",
    "64:ff9b::/96",
    "64:ff9b:1::/48",
    "100::/64",
    "2001::/23",
    "2001::/32",
    "2001:1::1/128",
    "2001:1::2/128",
    "2001:2::/48",
    "2001:3::/32",
    "2001:4:112::/48",
    "2001:20::/28",
    "2001:30::/28",
    "2001:db8::/32",
    "2002::/16",
    "2620:4f:8000::/48",
    "fc00::/7",
    "fe80::/10",
    "ff00::/8" ]

/-- `SPECIAL_IPV4_NETWORKS = {ip_network(p) for p in SPECIAL_IPV4}` (every
literal parses, so `filterMap` keeps all of them; the Python `set` only
deduplicates and the list has no duplicates). -/
def SPECIAL_IPV4_NETWORKS : List IPNetwork := SPECIAL_IPV4.filterMap ip_network

/-- `SPECIAL_IPV6_NETWORKS = {ip_network(p) for p in SPECIAL_IPV6}`. -/
def SPECIAL_IPV6_NETWORKS : List IPNetwork := SPECIAL_IPV6.filterMap ip_network

/-! ## The classifiers -/

/-- `is_bogon_pfx`: parse the literal, select the table of the parsed
network's address family, and test whether the network is a subnet of any
special-purpose network in it. -/
def is_bogon_pfx (pfx : String) : Except PyErr Bool :=
  match ip_network pfx with
  | none => .error .valueError
  | some network =>
      let networks :=
        if network.version = 4 then SPECIAL_IPV4_NETWORKS else SPECIAL_IPV6_NETWORKS
      .ok (networks.any (fun special_net => subnet_of network special_net))

/-- A raw ASN input: Python duck-types on `int` versus `str`. -/
inductive ASNRaw where
  | int : Int → ASNRaw
  | str : String → ASNRaw

/-- `extract_asn`: an integer is returned unchanged; a string is
lower-cased, every occurrence of `"as"` removed, stripped, and parsed with
`int(...)`. -/
def extract_asn : ASNRaw → Except PyErr Int
  | .int n => .ok n
  | .str s =>
      match pyInt (pyStrip (removeAS (pyLower s.data))) with
      | some n => .ok n
      | none => .error .valueError

/-- `reserved_asns` in `is_bogon_asn`. -/
def reserved_asns : List Int := [0, 112, 23456, 65535, 4294967295]

/-- `reserved_asn_ranges` in `is_bogon_asn` (inclusive bounds). -/
def reserved_asn_ranges : List (Int × Int) :=
  [ (64496, 64511),
    (64512, 65534),
    (65536, 65551),
    (65552, 131071),
    (4200000000, 4294967294) ]

/-- `is_bogon_asn`: normalise via `extract_asn`, then test the singleton
set and the inclusive ranges. -/
def is_bogon_asn (asn_raw : ASNRaw) : Except PyErr Bool :=
  match extract_asn asn_raw with
  | .error e => .error e
  | .ok asn =>
      if asn ∈ reserved_asns then .ok true
      else if reserved_asn_ranges.any
          (fun r => decide (r.1 ≤ asn) && decide (asn ≤ r.2)) then .ok true
      else .ok false

/-- `is_out_of_encoding_range`: normalise via `extract_asn`, then test
strict excess over the ceiling. -/
def is_out_of_encoding_range (asn_raw : ASNRaw) (max_asn_encoding : Int) :
    Except PyErr Bool :=
  match extract_asn asn_raw with
  | .error e => .error e
  | .ok asn => if asn > max_asn_encoding then .ok true else .ok false

/-- `is_out_of_encoding_range` at its default ceiling 33521664. -/
def is_out_of_encoding_range_default (asn_raw : ASNRaw) : Except PyErr Bool :=
  is_out_of_encoding_range asn_raw 33521664


/-! ## Common facts -/

/-- The network parsed from `"10.0.0.0/8"`, a registry entry. -/
def ten_slash_eight : IPNetwork := ⟨4, 167772160, 8⟩

/-! ## Claims -/

/-- C1: for every well-formed CIDR literal, `is_bogon_pfx` returns true iff
the parsed network is a subnet of at least one registry network of the same
address family (the table is selected by the parsed family, so IPv4 queries
are never tested against the IPv6 table and vice versa); and the broad
query `"0.0.0.0/0"`, which strictly contains registry entries but equals
none of them, returns false. -/
theorem is_bogon_pfx_subnet_iff (s : String) (n : IPNetwork)
    (h : ip_network s = some n) :
    (is_bogon_pfx s = .ok true ↔
      ∃ m ∈ (if n.version = 4 then SPECIAL_IPV4_NETWORKS else SPECIAL_IPV6_NETWORKS),
        subnet_of n m = true) ∧
    is_bogon_pfx "0.0.0.0/0" = .ok false := by
  constructor
  · simp [is_bogon_pfx, h, List.any_eq_true]
  · rfl

/-- Witness for C1 at the input `"10.0.0.0/8"`. -/
theorem is_bogon_pfx_subnet_iff_witness :
    ip_network "10.0.0.0/8" = some ⟨4, 167772160, 8⟩ ∧
    ((is_bogon_pfx "10.0.0.0/8" = .ok true ↔
      ∃ m ∈ (if (⟨4, 167772160, 8⟩ : IPNetwork).version = 4 then
               SPECIAL_IPV4_NETWORKS else SPECIAL_IPV6_NETWORKS),
        subnet_of ⟨4, 167772160, 8⟩ m = true) ∧
     is_bogon_pfx "0.0.0.0/0" = .ok false) :=
  ⟨rfl, is_bogon_pfx_subnet_iff "10.0.0.0/8" ⟨4, 167772160, 8⟩ rfl⟩

/-- C2 counterexample: `is_bogon_asn 65001` is true, not false — 65001 lies
in the private-use range `(64512, 65534)` of `reserved_asn_ranges`. -/
theorem is_bogon_asn_65001_counterexample :
    is_bogon_asn (.int 65001) = .ok true ∧ is_bogon_asn (.int 65001) ≠ .ok false := by
  refine ⟨rfl, fun hc => ?_⟩
  rw [show is_bogon_asn (.int 65001) = .ok true from rfl] at hc
  simp at hc

/-- C2 amended: `is_bogon_asn` is true on 0, 65535 and 4294967295, and also
true (not false) on 65001, which falls in the private-use range
64512–65534. -/
theorem is_bogon_asn_reserved_values :
    is_bogon_asn (.int 0) = .ok true ∧
    is_bogon_asn (.int 65535) = .ok true ∧
    is_bogon_asn (.int 4294967295) = .ok true ∧
    is_bogon_asn (.int 65001) = .ok true :=
  ⟨rfl, rfl, rfl, rfl⟩

/-- C4: every IPv4 network strictly contained in `10.0.0.0/8` is classified
as bogon, `"10.0.0.0/8"` itself is bogon by reflexive containment, and
`"8.8.8.0/24"` is not bogon. -/
theorem is_bogon_pfx_ten_slash_eight (s : String) (n : IPNetwork)
    (h : ip_network s = some n) (hsub : subnet_of n ten_slash_eight = true)
    (_hne : n ≠ ten_slash_eight) :
    is_bogon_pfx s = .ok true ∧
    is_bogon_pfx "10.0.0.0/8" = .ok true ∧
    is_bogon_pfx "8.8.8.0/24" = .ok false := by
  have hv : n.version = 4 := by
    simp [subnet_of, ten_slash_eight] at hsub
    exact hsub.1
  refine ⟨?_, rfl, rfl⟩
  simp [is_bogon_pfx, h, hv, List.any_eq_true]
  exact ⟨ten_slash_eight, by decide, hsub⟩

/-- Witness for C4 at the input `"10.1.0.0/16"`, a strict subnet of
`10.0.0.0/8`. -/
theorem is_bogon_pfx_ten_slash_eight_witness :
    ip_network "10.1.0.0/16" = some ⟨4, 167837696, 16⟩ ∧
    subnet_of ⟨4, 167837696, 16⟩ ten_slash_eight = true ∧
    (⟨4, 167837696, 16⟩ : IPNetwork) ≠ ten_slash_eight ∧
    is_bogon_pfx "10.1.0.0/16" = .ok true :=
  ⟨rfl, by decide, by decide,
   (is_bogon_pfx_ten_slash_eight "10.1.0.0/16" ⟨4, 167837696, 16⟩ rfl
     (by decide) (by decide)).1⟩

/-- C5: `extract_asn` returns an integer unchanged, and on a string
lower-cases it, removes every occurrence of `"as"` (also mid-string, not
only a leading prefix), strips surrounding whitespace, and parses the rest
as a base-10 integer; in particular `"AS65000"` and `65000` both map
to 65000. -/
theorem extract_asn_normalisation :
    (∀ n : Int, extract_asn (.int n) = .ok n) ∧
    (∀ s : String, extract_asn (.str s) =
      match pyInt (pyStrip (removeAS (pyLower s.data))) with
      | some n => .ok n
      | none => .error .valueError) ∧
    extract_asn (.str "AS65000") = .ok 65000 ∧
    extract_asn (.int 65000) = .ok 65000 ∧
    extract_asn (.str "65as000") = .ok 65000 :=
  ⟨fun _ => rfl, fun _ => rfl, rfl, rfl, rfl⟩

/-- Witness for C5 at the inputs `7` and `"AS65000"`. -/
theorem extract_asn_normalisation_witness :
    extract_asn (.int 7) = .ok 7 ∧ extract_asn (.str "AS65000") = .ok 65000 :=
  ⟨extract_asn_normalisation.1 7, extract_asn_normalisation.2.2.1⟩

/-- C7: `is_out_of_encoding_range` is true iff the normalised ASN strictly
exceeds the ceiling, and at the default ceiling 33521664 the boundary
values behave as stated. -/
theorem is_out_of_encoding_range_iff (raw : ASNRaw) (m n : Int)
    (h : extract_asn raw = .ok n) :
    (is_out_of_encoding_range raw m = .ok true ↔ m < n) ∧
    is_out_of_encoding_range_default (.int 33521665) = .ok true ∧
    is_out_of_encoding_range_default (.int 33521664) = .ok false := by
  refine ⟨?_, rfl, rfl⟩
  by_cases hc : m < n <;> simp [is_out_of_encoding_range, h, hc]

/-- Witness for C7 at the input `40000000` with the default ceiling. -/
theorem is_out_of_encoding_range_iff_witness :
    extract_asn (.int 40000000) = .ok 40000000 ∧
    ((is_out_of_encoding_range (.int 40000000) 33521664 = .ok true ↔
        (33521664 : Int) < 40000000) ∧
     is_out_of_encoding_range_default (.int 33521665) = .ok true ∧
     is_out_of_encoding_range_default (.int 33521664) = .ok false) :=
  ⟨rfl, is_out_of_encoding_range_iff (.int 40000000) 33521664 40000000 rfl⟩

/-- C8: normalisation is shared — whenever `extract_asn` succeeds on a
string with value `n`, `is_bogon_asn` and `is_out_of_encoding_range` give
the same answer on the string as on `n`; in particular `"AS64500"` and
`64500` agree and both are bogon. -/
theorem asn_normalisation_shared (s : String) (n : Int)
    (h : extract_asn (.str s) = .ok n) :
    (is_bogon_asn (.str s) = is_bogon_asn (.int n) ∧
     ∀ m : Int, is_out_of_encoding_range (.str s) m =
       is_out_of_encoding_range (.int n) m) ∧
    is_bogon_asn (.str "AS64500") = is_bogon_asn (.int 64500) ∧
    is_bogon_asn (.str "AS64500") = .ok true := by
  refine ⟨⟨?_, fun m => ?_⟩, rfl, rfl⟩
  · unfold is_bogon_asn
    rw [h]
    rfl
  · unfold is_out_of_encoding_range
    rw [h]
    rfl

/-- Witness for C8 at the input `"AS64500"`. -/
theorem asn_normalisation_shared_witness :
    extract_asn (.str "AS64500") = .ok 64500 ∧
    ((is_bogon_asn (.str "AS64500") = is_bogon_asn (.int 64500) ∧
      ∀ m : Int, is_out_of_encoding_range (.str "AS64500") m =
        is_out_of_encoding_range (.int 64500) m) ∧
     is_bogon_asn (.str "AS64500") = is_bogon_asn (.int 64500) ∧
     is_bogon_asn (.str "AS64500") = .ok true) :=
  ⟨rfl, asn_normalisation_shared "AS64500" 64500 rfl⟩

/-- C9: the reserved singletons and ranges cover the whole interval
64496–131071 with no gap. -/
theorem is_bogon_asn_contiguous_interval (n : Int) (h1 : 64496 ≤ n)
    (h2 : n ≤ 131071) : is_bogon_asn (.int n) = .ok true := by
  by_cases hm : n ∈ reserved_asns
  · simp [is_bogon_asn, extract_asn, hm]
  · have hne : n ≠ 65535 := by
      simp [reserved_asns] at hm
      exact hm.2.2.2.1
    have hany : reserved_asn_ranges.any
        (fun r => decide (r.1 ≤ n) && decide (n ≤ r.2)) = true := by
      rcases le_or_lt n 64511 with hc1 | hc1
      · exact List.any_eq_true.mpr ⟨(64496, 64511), by decide, by simp; omega⟩
      · rcases le_or_lt n 65534 with hc2 | hc2
        · exact List.any_eq_true.mpr ⟨(64512, 65534), by decide, by simp; omega⟩
        · rcases le_or_lt n 65551 with hc3 | hc3
          · exact List.any_eq_true.mpr ⟨(65536, 65551), by decide, by simp; omega⟩
          · exact List.any_eq_true.mpr ⟨(65552, 131071), by decide, by simp; omega⟩
    simp [is_bogon_asn, extract_asn, hm, hany]

/-- Witness for C9 at the input `65000`. -/
theorem is_bogon_asn_contiguous_interval_witness :
    (64496 : Int) ≤ 65000 ∧ (65000 : Int) ≤ 131071 ∧
    is_bogon_asn (.int 65000) = .ok true :=
  ⟨by decide, by decide, is_bogon_asn_contiguous_interval 65000 (by decide) (by decide)⟩

/-- C10: no 32-bit validation happens at the ASN interface — integers pass
through `extract_asn` unchanged (negative or above 4294967295 included),
and `is_bogon_asn` returns false on such out-of-range integers instead of
raising. -/
theorem asn_no_range_validation :
    (∀ n : Int, extract_asn (.int n) = .ok n) ∧
    extract_asn (.int (-1)) = .ok (-1) ∧
    extract_asn (.int 4294967296) = .ok 4294967296 ∧
    is_bogon_asn (.int 4294967296) = .ok false ∧
    is_bogon_asn (.int (-1)) = .ok false :=
  ⟨fun _ => rfl, rfl, rfl, rfl, rfl⟩

/-- Witness for C10 at the input `-1`. -/
theorem asn_no_range_validation_witness :
    extract_asn (.int (-1)) = .ok (-1) :=
  asn_no_range_validation.1 (-1)

/-! ## Structural lemmas about the parsers (used for C3 and C6) -/

theorem splitOn_ne_nil (sep : Char) (l : List Char) : splitOn sep l ≠ [] := by
  induction l with
  | nil => simp [splitOn]
  | cons c rest ih =>
    by_cases hc : c = sep
    · simp [splitOn, hc]
    · cases hr : splitOn sep rest with
      | nil => simp [splitOn, hc, hr]
      | cons h t => simp [splitOn, hc, hr]

theorem mem_of_mem_splitOn {sep : Char} {l part : List Char} {c : Char}
    (hp : part ∈ splitOn sep l) (hc : c ∈ part) : c ∈ l := by
  induction l generalizing part with
  | nil =>
    simp [splitOn] at hp
    subst hp
    simp at hc
  | cons a rest ih =>
    by_cases ha : a = sep
    · rw [splitOn, if_pos ha] at hp
      rcases List.mem_cons.mp hp with h1 | h1
      · subst h1; simp at hc
      · exact List.mem_cons_of_mem a (ih h1 hc)
    · cases hr : splitOn sep rest with
      | nil => exact absurd hr (splitOn_ne_nil sep rest)
      | cons hd t =>
        rw [splitOn, if_neg ha, hr] at hp
        rcases List.mem_cons.mp hp with h1 | h1
        · subst h1
          rcases List.mem_cons.mp hc with h2 | h2
          · subst h2; exact List.mem_cons_self c rest
          · exact List.mem_cons_of_mem a
              (ih (hr ▸ List.mem_cons_self hd t) h2)
        · exact List.mem_cons_of_mem a
            (ih (hr ▸ List.mem_cons_of_mem hd h1) hc)

theorem mem_splitOn_of_mem {sep : Char} {l : List Char} {c : Char}
    (hc : c ∈ l) (hne : c ≠ sep) : ∃ part ∈ splitOn sep l, c ∈ part := by
  induction l with
  | nil => simp at hc
  | cons a rest ih =>
    by_cases ha : a = sep
    · rcases List.mem_cons.mp hc with h1 | h1
      · exact absurd (h1.trans ha) hne
      · obtain ⟨part, hp, hcp⟩ := ih h1
        exact ⟨part, by rw [splitOn, if_pos ha]; exact List.mem_cons_of_mem [] hp, hcp⟩
    · cases hr : splitOn sep rest with
      | nil => exact absurd hr (splitOn_ne_nil sep rest)
      | cons hd t =>
        rcases List.mem_cons.mp hc with h1 | h1
        · refine ⟨a :: hd, ?_, by rw [h1]; exact List.mem_cons_self a hd⟩
          rw [splitOn, if_neg ha, hr]
          exact List.mem_cons_self (a :: hd) t
        · obtain ⟨part, hp, hcp⟩ := ih h1
          rw [hr] at hp
          rcases List.mem_cons.mp hp with h2 | h2
          · refine ⟨a :: hd, ?_, by rw [← h2]; exact List.mem_cons_of_mem a hcp⟩
            rw [splitOn, if_neg ha, hr]
            exact List.mem_cons_self (a :: hd) t
          · refine ⟨part, ?_, hcp⟩
            rw [splitOn, if_neg ha, hr]
            exact List.mem_cons_of_mem (a :: hd) h2

theorem splitOn_eq_single {sep : Char} {l : List Char} (h : sep ∉ l) :
    splitOn sep l = [l] := by
  induction l with
  | nil => rfl
  | cons a rest ih =>
    have ha : a ≠ sep := fun he => h (he ▸ List.mem_cons_self a rest)
    have hr : splitOn sep rest = [rest] :=
      ih (fun hm => h (List.mem_cons_of_mem a hm))
    rw [splitOn, if_neg (fun he => ha he), hr]

theorem parse_octet_digits {l : List Char} {v : Nat}
    (h : parse_octet l = some v) : l.all Char.isDigit = true := by
  by_contra hd
  have hne : l ≠ [] := by
    intro he
    subst he
    simp at hd
  simp [parse_octet, hne, hd] at h

theorem parsePrefixLen_digits {m : Nat} {l : List Char} {v : Nat}
    (h : parsePrefixLen m l = some v) : l.all Char.isDigit = true := by
  by_contra hd
  simp [parsePrefixLen, hd] at h

theorem optMapM_mem {f : List Char → Option Nat} {l : List (List Char)}
    {r : List Nat} {x : List Char} (h : optMapM f l = some r) (hx : x ∈ l) :
    ∃ y, f x = some y := by
  induction l generalizing r with
  | nil => simp at hx
  | cons a as ih =>
    cases hfa : f a with
    | none => simp [optMapM, hfa] at h
    | some y =>
      cases hrec : optMapM f as with
      | none => simp [optMapM, hfa, hrec] at h
      | some ys =>
        rcases List.mem_cons.mp hx with h1 | h1
        · exact ⟨y, h1 ▸ hfa⟩
        · exact ih hrec h1

theorem parseIPv4Address_chars {l : List Char} {v : Nat}
    (h : parseIPv4Address l = some v) :
    ∀ c ∈ l, c = '.' ∨ c.isDigit = true := by
  intro c hc
  by_cases hdot : c = '.'
  · exact Or.inl hdot
  · right
    obtain ⟨part, hp, hcp⟩ := mem_splitOn_of_mem hc hdot
    cases hmm : optMapM parse_octet (splitOn '.' l) with
    | none => simp [parseIPv4Address, hmm] at h
    | some r =>
      obtain ⟨y, hy⟩ := optMapM_mem hmm hp
      exact List.all_eq_true.mp (parse_octet_digits hy) c hcp

theorem parseIPv6Address_no_colon {l : List Char} (h : ':' ∉ l) :
    parseIPv6Address l = none := by
  simp [parseIPv6Address, splitOn_eq_single h]

theorem parseIPv6Network_no_colon {l : List Char} (h : ':' ∉ l) :
    parseIPv6Network l = none := by
  have key : ∀ part ∈ splitOn '/' l, ':' ∉ part :=
    fun part hp hc => h (mem_of_mem_splitOn hp hc)
  unfold parseIPv6Network parseIPv6Interface
  cases hsp : splitOn '/' l with
  | nil => rfl
  | cons a t =>
    cases t with
    | nil =>
      have ha := parseIPv6Address_no_colon
        (key a (hsp ▸ List.mem_cons_self a []))
      simp [ha]
    | cons m t2 =>
      cases t2 with
      | nil =>
        have ha := parseIPv6Address_no_colon
          (key a (hsp ▸ List.mem_cons_self a [m]))
        simp [ha]
      | cons x t3 => rfl

theorem parseIPv4Interface_no_colon {l : List Char} {x : Nat × Nat}
    (h : parseIPv4Interface l = some x) : ':' ∉ l := by
  intro hc
  obtain ⟨part, hp, hcp⟩ := @mem_splitOn_of_mem '/' l ':' hc (by decide)
  unfold parseIPv4Interface at h
  split at h
  · rename_i a heq
    rw [heq] at hp
    simp only [Option.map_eq_some'] at h
    obtain ⟨ip, hip, _⟩ := h
    have hpa : part = a := by simpa using hp
    rcases parseIPv4Address_chars hip ':' (hpa ▸ hcp) with h1 | h1 <;> simp at h1
  · rename_i a m heq
    rw [heq] at hp
    split at h
    · rename_i ip p hia him
      rcases List.mem_cons.mp hp with h1 | h1
      · rcases parseIPv4Address_chars hia ':' (h1 ▸ hcp) with h2 | h2 <;>
          simp at h2
      · have hpm : part = m := by simpa using h1
        have h3 := List.all_eq_true.mp (parsePrefixLen_digits him) ':'
          (hpm ▸ hcp)
        simp at h3
    · simp at h
  · simp at h

/-- C3 counterexample: the literal `"10.0.0.1/8"` (host bits set for its
prefix length) is rejected with an error by `is_bogon_pfx` — it is not
masked to `10.0.0.0/8` and classified as bogon. -/
theorem is_bogon_pfx_host_bits_counterexample :
    is_bogon_pfx "10.0.0.1/8" = .error .valueError ∧
    is_bogon_pfx "10.0.0.1/8" ≠ .ok true := by
  refine ⟨rfl, fun hc => ?_⟩
  rw [show is_bogon_pfx "10.0.0.1/8" = .error .valueError from rfl] at hc
  simp at hc

/-- C3 amended: a CIDR literal whose host bits are nonzero for its prefix
length is rejected by the strict parsing in `is_bogon_pfx` (Python
`ip_network` defaults to `strict=True`): classification never proceeds on
a masked network; the call raises. -/
theorem is_bogon_pfx_host_bits_rejected (s : String) (a p : Nat)
    (h : parseIPv4Interface s.data = some (a, p))
    (hb : a % 2 ^ (32 - p) ≠ 0) :
    is_bogon_pfx s = .error .valueError := by
  have h4 : parseIPv4Network s.data = none := by
    unfold parseIPv4Network
    rw [h]
    simp [hb]
  have h6 : parseIPv6Network s.data = none :=
    parseIPv6Network_no_colon (parseIPv4Interface_no_colon h)
  simp [is_bogon_pfx, ip_network, h4, h6]

/-- Witness for the amended C3 at the input `"10.0.0.1/8"`. -/
theorem is_bogon_pfx_host_bits_rejected_witness :
    parseIPv4Interface ("10.0.0.1/8" : String).data = some (167772161, 8) ∧
    167772161 % 2 ^ (32 - 8) ≠ 0 ∧
    is_bogon_pfx "10.0.0.1/8" = .error .valueError :=
  ⟨rfl, by decide,
   is_bogon_pfx_host_bits_rejected "10.0.0.1/8" 167772161 8 rfl (by decide)⟩

/-- C6 counterexample: an ASN string whose normalised remainder keeps a
negative sign does not raise — `extract_asn "-5"` succeeds with `-5` (and
`is_bogon_asn` then answers false), and an underscore separator is also
accepted by Python `int`, so `"6_5000"` normalises to 65000. -/
theorem extract_asn_negative_sign_counterexample :
    extract_asn (.str "-5") = .ok (-5) ∧
    is_bogon_asn (.str "-5") = .ok false ∧
    extract_asn (.str "6_5000") = .ok 65000 :=
  ⟨rfl, rfl, rfl⟩

/-- C6 amended: malformed inputs raise and are never coerced to a default
classification — unparseable CIDR literals make `is_bogon_pfx` error;
non-numeric or empty ASN remainders (including comma separators) make
`extract_asn` error, and that error propagates through `is_bogon_asn` and
`is_out_of_encoding_range`; but a remaining negative sign parses as a
negative integer rather than raising. -/
theorem invalid_inputs_error :
    (∀ s : String, ip_network s = none → is_bogon_pfx s = .error .valueError) ∧
    is_bogon_pfx "not-a-network" = .error .valueError ∧
    extract_asn (.str "garbage") = .error .valueError ∧
    extract_asn (.str "") = .error .valueError ∧
    extract_asn (.str "65,000") = .error .valueError ∧
    (∀ s : String, extract_asn (.str s) = .error .valueError →
      is_bogon_asn (.str s) = .error .valueError ∧
      ∀ m : Int, is_out_of_encoding_range (.str s) m = .error .valueError) ∧
    extract_asn (.str "-5") = .ok (-5) := by
  refine ⟨fun s h => by simp [is_bogon_pfx, h], rfl, rfl, rfl, rfl,
    fun s h => ⟨?_, fun m => ?_⟩, rfl⟩
  · unfold is_bogon_asn
    rw [h]
  · unfold is_out_of_encoding_range
    rw [h]

/-- Witness for the amended C6 at the inputs `"banana"` and `"garbage"`. -/
theorem invalid_inputs_error_witness :
    ip_network "banana" = none ∧
    is_bogon_pfx "banana" = .error .valueError ∧
    extract_asn (.str "garbage") = .error .valueError ∧
    is_bogon_asn (.str "garbage") = .error .valueError ∧
    is_out_of_encoding_range (.str "garbage") 33521664 = .error .valueError :=
  ⟨rfl, invalid_inputs_error.1 "banana" rfl, rfl,
   (invalid_inputs_error.2.2.2.2.2.1 "garbage" rfl).1,
   (invalid_inputs_error.2.2.2.2.2.1 "garbage" rfl).2 33521664⟩
